import Mathlib

/-!
Verification of the store-resolution and context-switching subsystem of
konf-go (`cmd/set.go`) against its natural-language specification.

The Go code is shallowly embedded:

* a store directory is a list of `DirEntry` records (file name, directory
  flag, and the result of `yaml.Unmarshal` on the file bytes); of a parsed
  `k8s.Config` document only the cluster and context names are kept, since
  the code reads nothing else;
* `afero.Walk` plus the walk callback of `fetchKonfs` becomes a filter over
  that list (the root element, appended first and cut by `konfs = konfs[1:]`,
  is represented implicitly); `sort.Slice` by file name becomes an insertion
  sort under byte-lexicographic string order (UTF-8 byte order coincides
  with code-point order);
* a Go runtime panic (out-of-range slice index) is modelled by the value
  `none` of an outer `Option`; an ordinary returned `error` by `Except.error`;
* the filesystem used by `setContext` / `saveLatestKonf` / `selectLastKonf`
  is a path-to-content association list together with a set of paths whose
  writes fail, so that write errors are expressible; reads of files present
  in the model never fail, and a missing path models `fs.ErrNotExist`.

Helpers from the `config` and `utils` packages of the repository are not
part of the given source; they are modelled from the spec and from the
concrete paths and identifiers pinned by the test file.
-/

namespace Konf

/-- The parsed form of a store file: of `k8s.Config` the code uses only
`len(.Clusters)`, `len(.Contexts)`, `.Clusters[0].Name` and
`.Contexts[0].Name`, so a document is modelled by its cluster names and
context names. -/
structure KubeConfig where
  clusters : List String
  contexts : List String
deriving DecidableEq

/-- One entry of the store directory as seen by the `afero.Walk` callback in
`fetchKonfs`: its file name, whether it is a directory, and the result of
`yaml.Unmarshal` on its bytes (`none` models a parse failure). -/
structure DirEntry where
  name : String
  isDir : Bool
  parsed : Option KubeConfig
deriving DecidableEq

/-- Modelled from the spec: `config.StoreDir()`, the flat store directory;
the concrete value is pinned by the tests (`./konf/store`). -/
def storeDir : String := "./konf/store"

/-- Modelled from the spec: `config.LatestKonfFile()`, the single persisted
record of the last activated identifier; pinned by the tests
(`./konf/latestkonf`). -/
def latestKonfFile : String := "./konf/latestkonf"

/-- Modelled from the spec: the directory holding the parent-process-scoped
active konf files. -/
def activeDir : String := "./konf/active"

/-- Modelled from the spec: `utils.IDFromFileInfo`, deriving the identifier
from a store file name by stripping the `.yaml` extension when present
(stated over the character data so that it evaluates by the kernel). -/
def idFromFileName (n : String) : String :=
  if n.data.drop (n.data.length - 5) = (".yaml").data
  then String.mk (n.data.take (n.data.length - 5)) else n

/-- Modelled from the spec: `utils.StorePathForID`, the deterministic path
derivation from an identifier into the store. -/
def storePathForID (id : String) : String := storeDir ++ "/" ++ id ++ ".yaml"

/-- Modelled from the spec: `utils.ActivePathForID`, the path of the active
konf for one activation scope key (the decimal parent process id). -/
def activePathForID (s : String) : String := activeDir ++ "/" ++ s ++ ".yaml"

/-- Modelled from the spec: `utils.IDFromClusterAndContext`. The tests pin
the format: cluster `dev-asia-1`, context `dev-asia` give identifier
`dev-asia_dev-asia-1`, i.e. context, underscore, cluster. -/
def idFromClusterAndContext (cluster context : String) : String :=
  context ++ "_" ++ cluster

/-- `strings.HasPrefix(info.Name(), ".")`: the name's first character is a
dot. -/
def isHiddenName (n : String) : Bool := n.data.head? == some '.'

/-- The walk callback of `fetchKonfs` keeps an entry iff it is not a
directory (every non-root directory gets `filepath.SkipDir`) and its name
does not start with a dot (hidden files are skipped silently). -/
def keepEntry (e : DirEntry) : Bool :=
  !e.isDir && !(isHiddenName e.name)

instance {ε α : Type} [DecidableEq ε] [DecidableEq α] : DecidableEq (Except ε α) := fun a b =>
  match a, b with
  | Except.ok x, Except.ok y =>
    if h : x = y then isTrue (congrArg Except.ok h)
    else isFalse (fun he => h (Except.ok.inj he))
  | Except.error x, Except.error y =>
    if h : x = y then isTrue (congrArg Except.error h)
    else isFalse (fun he => h (Except.error.inj he))
  | Except.ok _, Except.error _ => isFalse (fun he => Except.noConfusion he)
  | Except.error _, Except.ok _ => isFalse (fun he => Except.noConfusion he)

/-- Byte-lexicographic "less or equal" on code-point lists; for UTF-8
encoded strings this coincides with Go's byte-wise string order used by
`konfs[i].Name() < konfs[j].Name()`. -/
def leChars : List Char → List Char → Bool
  | [], _ => true
  | _ :: _, [] => false
  | a :: as, b :: bs =>
    if a.toNat < b.toNat then true
    else if b.toNat < a.toNat then false
    else leChars as bs

/-- Lexicographic string order on the underlying character data. -/
def nameLe (a b : String) : Bool := leChars a.data b.data

/-- The sort order of `fetchKonfs`: ascending file name. -/
def konfLe (a b : DirEntry) : Prop := nameLe a.name b.name = true

instance : DecidableRel konfLe :=
  fun a b => inferInstanceAs (Decidable (nameLe a.name b.name = true))

theorem leChars_total : ∀ a b, leChars a b = true ∨ leChars b a = true := by
  intro a
  induction a with
  | nil => intro b; left; rfl
  | cons x xs ih =>
    intro b
    cases b with
    | nil => right; rfl
    | cons y ys =>
      by_cases hxy : x.toNat < y.toNat
      · left; simp [leChars, hxy]
      · by_cases hyx : y.toNat < x.toNat
        · right; simp [leChars, hyx]
        · rcases ih ys with h | h
          · left; simp [leChars, hxy, hyx, h]
          · right; simp [leChars, hxy, hyx, h]

theorem leChars_trans :
    ∀ a b c, leChars a b = true → leChars b c = true → leChars a c = true := by
  intro a
  induction a with
  | nil => intro b c _ _; rfl
  | cons x xs ih =>
    intro b c hab hbc
    cases b with
    | nil => simp [leChars] at hab
    | cons y ys =>
      cases c with
      | nil => simp [leChars] at hbc
      | cons z zs =>
        simp only [leChars] at hab hbc ⊢
        by_cases hxy : x.toNat < y.toNat
        · by_cases hyz : y.toNat < z.toNat
          · have : x.toNat < z.toNat := Nat.lt_trans hxy hyz
            simp [this]
          · by_cases hzy : z.toNat < y.toNat
            · simp [hyz, hzy] at hbc
            · have hyzeq : y.toNat = z.toNat := Nat.le_antisymm (Nat.not_lt.mp hzy) (Nat.not_lt.mp hyz)
              have : x.toNat < z.toNat := hyzeq ▸ hxy
              simp [this]
        · by_cases hyx : y.toNat < x.toNat
          · simp [hxy, hyx] at hab
          · have hxyeq : x.toNat = y.toNat := Nat.le_antisymm (Nat.not_lt.mp hyx) (Nat.not_lt.mp hxy)
            by_cases hyz : y.toNat < z.toNat
            · have : x.toNat < z.toNat := hxyeq ▸ hyz
              simp [this]
            · by_cases hzy : z.toNat < y.toNat
              · simp [hyz, hzy] at hbc
              · simp [hyz, hzy] at hbc
                have h1 : ¬ x.toNat < z.toNat := by omega
                have h2 : ¬ z.toNat < x.toNat := by omega
                simp only [hxy, hyx] at hab
                simp [h1, h2]
                exact ih ys zs hab hbc

instance : IsTotal DirEntry konfLe :=
  ⟨fun a b => leChars_total a.name.data b.name.data⟩

instance : IsTrans DirEntry konfLe :=
  ⟨fun a b c => leChars_trans a.name.data b.name.data c.name.data⟩

/-- The sequence of file records the indexing loop of `fetchKonfs` iterates
over: walk the directory (filter), then sort ascending by name. -/
def processOrder (dir : List DirEntry) : List DirEntry :=
  List.insertionSort konfLe (dir.filter keepEntry)

/-- `tableOutput` of `set.go`: the lightweight descriptor produced per valid
store file. -/
structure tableOutput where
  Context : String
  Cluster : String
  File : String
deriving DecidableEq

/-- The two error conditions `fetchKonfs` can produce itself: `EmptyStore`
and `KubeConfigOverload` (the latter carrying the offending path). -/
inductive FetchErr where
  | emptyStore : FetchErr
  | kubeConfigOverload : String → FetchErr
deriving DecidableEq

/-- The path the indexing loop re-derives for an entry:
`utils.StorePathForID(utils.IDFromFileInfo(konf))`. -/
def entryPath (e : DirEntry) : String := storePathForID (idFromFileName e.name)

/-- The per-file loop of `fetchKonfs` (lines 233-262): skip parse failures
with a warning, abort with `KubeConfigOverload` on more than one context or
cluster, otherwise read the first context and first cluster name. The outer
`Option` models Go runtime panics: the unconditional `Contexts[0]` /
`Clusters[0]` access panics (`none`) on a document with zero contexts or
zero clusters. -/
def indexKonfs : List DirEntry → Option (Except FetchErr (List tableOutput))
  | [] => some (Except.ok [])
  | e :: rest =>
    match e.parsed with
    | none => indexKonfs rest
    | some kc =>
      if decide (1 < kc.contexts.length) || decide (1 < kc.clusters.length) then
        some (Except.error (FetchErr.kubeConfigOverload (entryPath e)))
      else
        match kc.contexts.head?, kc.clusters.head? with
        | some ctx, some cl =>
          match indexKonfs rest with
          | none => none
          | some (Except.error err) => some (Except.error err)
          | some (Except.ok out) =>
            some (Except.ok ({ Context := ctx, Cluster := cl, File := entryPath e } :: out))
        | _, _ => none

/-- `fetchKonfs` (lines 190-264): walk and filter the store, sort by name,
fail with `EmptyStore` when nothing is left, then run the indexing loop. -/
def fetchKonfs (dir : List DirEntry) : Option (Except FetchErr (List tableOutput)) :=
  if (processOrder dir).length = 0 then some (Except.error FetchErr.emptyStore)
  else indexKonfs (processOrder dir)

/-- Greedy rune-subsequence matcher of `fuzzy.Match`
(lithammer/fuzzysearch): for every source rune, consume the target up to
and including the first equal rune; fail when the target is exhausted.
(The byte-length shortcut of the library is a pure optimisation: a rune
subsequence never has more bytes than its target.) -/
def fuzzyMatch : List Char → List Char → Bool
  | [], _ => true
  | _ :: _, [] => false
  | a :: as, b :: bs => if a = b then fuzzyMatch as bs else fuzzyMatch (a :: as) bs

/-- The search surface of `searchKonf`: `fmt.Sprintf("%s %s %s", ...)` over
context, cluster and file. -/
def searchSurface (t : tableOutput) : String :=
  t.Context ++ " " ++ t.Cluster ++ " " ++ t.File

/-- `searchKonf` (lines 294-299): fuzzy-match the search term against the
space-joined concatenation of the three fields. -/
def searchKonf (searchTerm : String) (curItem : tableOutput) : Bool :=
  fuzzyMatch searchTerm.data (searchSurface curItem).data

/-- Case folding used only to state the spec's reading of the matcher. -/
def lowerChars (s : String) : List Char := s.data.map Char.toLower

/-- The fuzzy matcher as the spec words it (refinement comparison only):
a case-insensitive subsequence match over the same surface. -/
def searchKonfSpec (searchTerm : String) (curItem : tableOutput) : Bool :=
  fuzzyMatch (lowerChars searchTerm) (lowerChars (searchSurface curItem))

/-- The error outcomes of `selectContext`: a propagated `fetchKonfs` error,
a propagated prompt error, or the defensive invalid-selection error carrying
the offending index. -/
inductive SelectErr where
  | fetch : FetchErr → SelectErr
  | promptFailure : SelectErr
  | invalidSelection : Int → SelectErr
deriving DecidableEq

/-- `selectContext` (lines 120-137). The prompt function is modelled by its
result (an index, or an error). Go's `selPos >= len(k)` check only guards
the upper bound; `k[selPos]` on a negative index is a runtime panic,
modelled by `none`. -/
def selectContext (dir : List DirEntry) (pf : Except Unit Int) :
    Option (Except SelectErr String) :=
  match fetchKonfs dir with
  | none => none
  | some (Except.error e) => some (Except.error (SelectErr.fetch e))
  | some (Except.ok k) =>
    match pf with
    | Except.error _ => some (Except.error SelectErr.promptFailure)
    | Except.ok selPos =>
      if (k.length : Int) ≤ selPos then
        some (Except.error (SelectErr.invalidSelection selPos))
      else if selPos < 0 then none
      else
        match k.get? selPos.toNat with
        | some sel =>
          some (Except.ok (idFromClusterAndContext sel.Cluster sel.Context))
        | none => none

/-- `cobra.ShellCompDirective` restricted to the two values `completeSet`
uses. -/
inductive ShellCompDirective where
  | noFileComp : ShellCompDirective
  | compError : ShellCompDirective
deriving DecidableEq

/-- `completeSet` (lines 96-116): an `EmptyStore` error becomes an empty,
non-error suggestion list; any other indexing error becomes
(`nil`, error directive), modelled as `none` for the list; on success every
indexed entry contributes its identifier. The outer `Option` again models a
panic inside `fetchKonfs`. -/
def completeSet (dir : List DirEntry) :
    Option (Option (List String) × ShellCompDirective) :=
  match fetchKonfs dir with
  | none => none
  | some (Except.error FetchErr.emptyStore) =>
    some (some [], ShellCompDirective.noFileComp)
  | some (Except.error _) => some (none, ShellCompDirective.compError)
  | some (Except.ok konfs) =>
    some (some (konfs.map (fun k => idFromClusterAndContext k.Cluster k.Context)),
      ShellCompDirective.noFileComp)

/-- The filesystem for the activation manager: an association list of paths
to contents, plus the set of paths whose writes fail (modelling underlying
I/O write errors of `afero.WriteFile`). -/
structure FsState where
  files : List (String × String)
  failWrites : List String
deriving DecidableEq

/-- `afero.ReadFile`: `none` models `fs.ErrNotExist`. -/
def readFile (f : FsState) (p : String) : Option String :=
  (f.files.find? (fun kv => kv.1 == p)).map (fun kv => kv.2)

/-- `afero.WriteFile`: create or overwrite, or fail when the path is in the
failing set (no mutation happens on failure). -/
def writeFile (f : FsState) (p c : String) : Except Unit FsState :=
  if p ∈ f.failWrites then Except.error ()
  else Except.ok { f with files := (p, c) :: f.files.filter (fun kv => !(kv.1 == p)) }

/-- The error outcomes of `setContext`: the store file for the identifier
does not exist, or the write of the active konf failed. -/
inductive SetCtxErr where
  | notFound : SetCtxErr
  | writeFailure : SetCtxErr
deriving DecidableEq

/-- `setContext` (lines 150-165): read the store file derived from the
identifier (missing file fails not-found), write its bytes to the
parent-process-scoped active path, return that path. The resulting state is
returned alongside; on error the state is unchanged. `os.Getppid()` is an
explicit parameter. -/
def setContext (id : String) (ppid : Nat) (f : FsState) :
    (Except SetCtxErr String) × FsState :=
  match readFile f (storePathForID id) with
  | none => (Except.error SetCtxErr.notFound, f)
  | some konf =>
    match writeFile f (activePathForID (toString ppid)) konf with
    | Except.error _ => (Except.error SetCtxErr.writeFailure, f)
    | Except.ok f2 => (Except.ok (activePathForID (toString ppid)), f2)

/-- `saveLatestKonf` (lines 167-169): overwrite the latest record with the
identifier. -/
def saveLatestKonf (f : FsState) (id : String) : Except Unit FsState :=
  writeFile f latestKonfFile id

/-- The dedicated error of `selectLastKonf` when no record exists yet (the
`fs.ErrNotExist` branch with its own message). -/
inductive LastErr where
  | noPriorSelection : LastErr
deriving DecidableEq

/-- `selectLastKonf` (lines 139-148): read the latest record; absence is the
dedicated nothing-set-yet condition. (In this model reads of present files
never fail, so the generic I/O branch of the Go code is unreachable.) -/
def selectLastKonf (f : FsState) : Except LastErr String :=
  match readFile f latestKonfFile with
  | none => Except.error LastErr.noPriorSelection
  | some b => Except.ok b

/-- The error outcomes of the tail of `set`. -/
inductive SetErr where
  | contextErr : SetCtxErr → SetErr
  | saveLatestErr : SetErr
deriving DecidableEq

/-- The tail of `set` once the identifier is determined (lines 77-93):
activate, then record the latest identifier — a failure there is returned
as an error, aborting before the `KUBECONFIGCHANGE` line — then print the
activation signal. The third component is the list of stdout lines. -/
def setWithId (id : String) (ppid : Nat) (f : FsState) :
    (Except SetErr Unit) × FsState × List String :=
  match setContext id ppid f with
  | (Except.error e, f1) => (Except.error (SetErr.contextErr e), f1, [])
  | (Except.ok context, f1) =>
    match saveLatestKonf f1 id with
    | Except.error _ => (Except.error SetErr.saveLatestErr, f1, [])
    | Except.ok f2 => (Except.ok (), f2, ["KUBECONFIGCHANGE:" ++ context])

/-! ## Helper lemmas -/

/-- The greedy matcher of `fuzzy.Match` decides exactly the subsequence
relation on the rune lists. -/
theorem fuzzyMatch_iff_sublist : ∀ (q t : List Char), fuzzyMatch q t = true ↔ q.Sublist t := by
  intro q t
  induction t generalizing q with
  | nil =>
    cases q with
    | nil => simp [fuzzyMatch]
    | cons a as => simp [fuzzyMatch]
  | cons b bs ih =>
    cases q with
    | nil => simp [fuzzyMatch]
    | cons a as =>
      by_cases hab : a = b
      · subst hab
        have hstep : fuzzyMatch (a :: as) (a :: bs) = fuzzyMatch as bs := by
          simp [fuzzyMatch]
        rw [hstep, ih]
        exact (List.cons_sublist_cons).symm
      · simp only [fuzzyMatch, if_neg hab]
        rw [ih]
        constructor
        · exact fun h => h.cons b
        · intro h
          cases h with
          | cons _ h => exact h
          | cons₂ => exact absurd rfl hab

/-- Indexing a run of parse failures produces the empty table (every file is
skipped with a warning). -/
theorem indexKonfs_all_malformed :
    ∀ s : List DirEntry, (∀ e ∈ s, e.parsed = none) →
      indexKonfs s = some (Except.ok []) := by
  intro s
  induction s with
  | nil => intro _; rfl
  | cons e rest ih =>
    intro h
    have he : e.parsed = none := h e (List.mem_cons_self e rest)
    simp only [indexKonfs, he]
    exact ih (fun x hx => h x (List.mem_cons_of_mem e hx))

/-- A file record the loop passes over without aborting or panicking: parse
failure, or exactly one context and exactly one cluster. -/
def passesClean (e : DirEntry) : Bool :=
  match e.parsed with
  | none => true
  | some kc => kc.contexts.length == 1 && kc.clusters.length == 1

/-- A file record violating store purity: successful parse with more than
one context or more than one cluster. -/
def isOverloaded (e : DirEntry) : Bool :=
  match e.parsed with
  | none => false
  | some kc => decide (1 < kc.contexts.length) || decide (1 < kc.clusters.length)

/-- The loop aborts at the first overloaded record, provided everything
before it is skipped or indexed cleanly. -/
theorem indexKonfs_first_overload :
    ∀ (pre : List DirEntry) (off : DirEntry) (rest : List DirEntry),
      isOverloaded off = true → (∀ e ∈ pre, passesClean e = true) →
      indexKonfs (pre ++ off :: rest)
        = some (Except.error (FetchErr.kubeConfigOverload (entryPath off))) := by
  intro pre
  induction pre with
  | nil =>
    intro off rest hoff _
    cases hp : off.parsed with
    | none => simp [isOverloaded, hp] at hoff
    | some kc =>
      simp only [isOverloaded, hp] at hoff
      simp only [List.nil_append, indexKonfs, hp, hoff, if_pos]
  | cons e pre ih =>
    intro off rest hoff hpre
    have hec : passesClean e = true := hpre e (List.mem_cons_self e pre)
    have hrest : ∀ x ∈ pre, passesClean x = true :=
      fun x hx => hpre x (List.mem_cons_of_mem e hx)
    cases hp : e.parsed with
    | none =>
      simp only [List.cons_append, indexKonfs, hp]
      exact ih off rest hoff hrest
    | some kc =>
      simp only [passesClean, hp, Bool.and_eq_true, beq_iff_eq] at hec
      obtain ⟨hc1, hc2⟩ := hec
      obtain ⟨ctx, hctx⟩ := List.length_eq_one.mp hc1
      obtain ⟨cl, hcl⟩ := List.length_eq_one.mp hc2
      have hguard : (decide (1 < kc.contexts.length) || decide (1 < kc.clusters.length)) = false := by
        simp [hc1, hc2]
      simp only [List.cons_append, indexKonfs, hp, hguard, Bool.false_eq_true, if_false,
        hctx, hcl, List.head?, List.append_eq]
      rw [ih off rest hoff hrest]
      simp

/-- The per-file descriptor the loop emits for a record (first context name,
first cluster name, derived path). -/
def entryOutput (e : DirEntry) : tableOutput :=
  match e.parsed with
  | some kc =>
    { Context := kc.contexts.headD "", Cluster := kc.clusters.headD "", File := entryPath e }
  | none => { Context := "", Cluster := "", File := entryPath e }

/-- A valid store record: a plain non-hidden file parsing to exactly one
context and exactly one cluster. -/
def isSingleKonf (e : DirEntry) : Bool :=
  keepEntry e &&
    (match e.parsed with
     | some kc => kc.contexts.length == 1 && kc.clusters.length == 1
     | none => false)

/-- Indexing a run of valid records emits one descriptor per record, in
order. -/
theorem indexKonfs_all_single :
    ∀ s : List DirEntry, (∀ e ∈ s, isSingleKonf e = true) →
      indexKonfs s = some (Except.ok (s.map entryOutput)) := by
  intro s
  induction s with
  | nil => intro _; rfl
  | cons e rest ih =>
    intro h
    have he : isSingleKonf e = true := h e (List.mem_cons_self e rest)
    cases hp : e.parsed with
    | none => simp [isSingleKonf, hp] at he
    | some kc =>
      simp only [isSingleKonf, hp, Bool.and_eq_true, beq_iff_eq] at he
      obtain ⟨-, hc1, hc2⟩ := he
      obtain ⟨ctx, hctx⟩ := List.length_eq_one.mp hc1
      obtain ⟨cl, hcl⟩ := List.length_eq_one.mp hc2
      have hguard : (decide (1 < kc.contexts.length) || decide (1 < kc.clusters.length)) = false := by
        simp [hc1, hc2]
      simp only [indexKonfs, hp, hguard, Bool.false_eq_true, if_false, hctx, hcl, List.head?]
      rw [ih (fun x hx => h x (List.mem_cons_of_mem e hx))]
      simp [entryOutput, hp, hctx, hcl, List.map_cons]

/-- Reading back a successfully written path yields the written content. -/
theorem readFile_writeFile (f f2 : FsState) (p c : String)
    (h : writeFile f p c = Except.ok f2) : readFile f2 p = some c := by
  unfold writeFile at h
  split at h
  · exact Except.noConfusion h
  · cases h
    simp [readFile]

/-! ## Claim theorems -/

/-- C1 (amended): if, among the name-sorted non-hidden store files, some
file parses successfully with more than one context or more than one
cluster, and every file sorted before it is either malformed (skipped with
a warning) or parses to exactly one context and one cluster, then indexing
returns no entries and a `KubeConfigOverload` error carrying the path of
that first offending file, regardless of how many other valid files are
present. (As literally stated the claim fails: with several offending files
the error carries only the sorted-first offender's path.) -/
theorem fetchKonfs_first_overload_aborts
    (dir pre : List DirEntry) (off : DirEntry) (rest : List DirEntry)
    (hsplit : processOrder dir = pre ++ off :: rest)
    (hoff : isOverloaded off = true)
    (hpre : ∀ e ∈ pre, passesClean e = true) :
    fetchKonfs dir = some (Except.error (FetchErr.kubeConfigOverload (entryPath off))) := by
  unfold fetchKonfs
  rw [hsplit]
  have hne : ¬ (pre ++ off :: rest).length = 0 := by simp
  rw [if_neg hne]
  exact indexKonfs_first_overload pre off rest hoff hpre

/-- A clean single-context/single-cluster store file sorted first. -/
def demoCleanA : DirEntry :=
  DirEntry.mk "a.yaml" false (some (KubeConfig.mk ["cl-a"] ["ctx-a"]))

/-- An overloaded store file (two contexts) sorted second. -/
def demoOverB : DirEntry :=
  DirEntry.mk "b.yaml" false (some (KubeConfig.mk ["cl"] ["c1", "c2"]))

theorem fetchKonfs_first_overload_aborts_witness :
    fetchKonfs [demoOverB, demoCleanA]
      = some (Except.error (FetchErr.kubeConfigOverload (entryPath demoOverB))) :=
  fetchKonfs_first_overload_aborts [demoOverB, demoCleanA] [demoCleanA] demoOverB []
    (by decide) (by decide) (by decide)

/-- An overloaded store file named `a.yaml`. -/
def overloadedA : DirEntry :=
  DirEntry.mk "a.yaml" false (some (KubeConfig.mk ["cl"] ["c1", "c2"]))

/-- An overloaded store file named `b.yaml`. -/
def overloadedB : DirEntry :=
  DirEntry.mk "b.yaml" false (some (KubeConfig.mk ["cl"] ["c1", "c2"]))

/-- C1 counterexample: `b.yaml` is an offending multi-context file in the
store, yet the error returned carries `a.yaml`'s path, not `b.yaml`'s — so
"a StoreImpurity error carrying that file's path" does not hold for every
offending file. -/
theorem fetchKonfs_overload_two_offenders :
    isOverloaded overloadedB = true
  ∧ fetchKonfs [overloadedA, overloadedB]
      = some (Except.error (FetchErr.kubeConfigOverload (entryPath overloadedA)))
  ∧ entryPath overloadedA ≠ entryPath overloadedB := by decide

/-- C2 (amended): if after hidden-file and directory filtering no file
remains, indexing fails with `EmptyStore`; but if malformed files remain,
they are all skipped and indexing returns a successful EMPTY entry list
rather than the EmptyStore failure (the emptiness check runs before
parsing). -/
theorem fetchKonfs_empty_and_all_malformed :
    (∀ dir : List DirEntry, dir.filter keepEntry ≠ [] →
        (∀ e ∈ dir.filter keepEntry, e.parsed = none) →
        fetchKonfs dir = some (Except.ok []))
  ∧ (∀ dir : List DirEntry, dir.filter keepEntry = [] →
        fetchKonfs dir = some (Except.error FetchErr.emptyStore)) := by
  constructor
  · intro dir hne hmal
    unfold fetchKonfs processOrder
    have hlen : (List.insertionSort konfLe (dir.filter keepEntry)).length
        = (dir.filter keepEntry).length := List.length_insertionSort konfLe _
    have hne2 : ¬ (List.insertionSort konfLe (dir.filter keepEntry)).length = 0 := by
      rw [hlen]
      simpa [List.length_eq_zero] using hne
    rw [if_neg hne2]
    exact indexKonfs_all_malformed _ (fun e he =>
      hmal e ((List.perm_insertionSort konfLe (dir.filter keepEntry)).mem_iff.mp he))
  · intro dir h
    unfold fetchKonfs processOrder
    rw [h]
    rfl

/-- A store holding one malformed (unparsable) file. -/
def malformedOnlyStore : List DirEntry := [DirEntry.mk "bad.yaml" false none]

theorem fetchKonfs_empty_and_all_malformed_witness :
    fetchKonfs malformedOnlyStore = some (Except.ok [])
  ∧ fetchKonfs [DirEntry.mk ".DS_Store" false none]
      = some (Except.error FetchErr.emptyStore) :=
  ⟨fetchKonfs_empty_and_all_malformed.1 malformedOnlyStore (by decide) (by decide),
   fetchKonfs_empty_and_all_malformed.2 [DirEntry.mk ".DS_Store" false none] (by decide)⟩

/-- C2 counterexample: a store whose only file is malformed does NOT fail
with `EmptyStore` — indexing succeeds with an empty entry list. -/
theorem fetchKonfs_all_malformed_not_emptyStore :
    fetchKonfs [DirEntry.mk "bad.yaml" false none] = some (Except.ok [])
  ∧ fetchKonfs [DirEntry.mk "bad.yaml" false none]
      ≠ some (Except.error FetchErr.emptyStore) := by decide

/-- C3 (amended): `searchKonf` returns true iff the characters of the query
appear in order (not necessarily contiguously) within the space-separated
concatenation of the entry's Context, Cluster and File fields — compared
CASE-SENSITIVELY (`fuzzy.Match` does no case folding). -/
theorem searchKonf_iff_subsequence (q : String) (e : tableOutput) :
    searchKonf q e = true ↔ q.data.Sublist (searchSurface e).data :=
  fuzzyMatch_iff_sublist q.data (searchSurface e).data

theorem searchKonf_iff_subsequence_witness :
    searchKonf "textclu" (tableOutput.mk "context" "cluster" "file") = true ↔
      ("textclu" : String).data.Sublist
        (searchSurface (tableOutput.mk "context" "cluster" "file")).data :=
  searchKonf_iff_subsequence "textclu" (tableOutput.mk "context" "cluster" "file")

/-- C3 counterexample: the query `"A"` is a case-insensitive subsequence of
the surface `"a b c"` (so the spec's reading matches), but `searchKonf`
rejects it: matching is case-sensitive. -/
theorem searchKonf_case_sensitive_counterexample :
    searchKonf "A" (tableOutput.mk "a" "b" "c") = false
  ∧ searchKonfSpec "A" (tableOutput.mk "a" "b" "c") = true := by decide

/-- A store file whose content is valid YAML but declares zero contexts and
zero clusters (e.g. `apiVersion: v1` and nothing else): `yaml.Unmarshal`
succeeds with empty slices. -/
def degenerateKonf : DirEntry := DirEntry.mk "deg.yaml" false (some (KubeConfig.mk [] []))

/-- C10: the implicit claim — every successfully parsed document that passes
the impurity check has at least one context and one cluster, so the
unconditional `Contexts[0]`/`Clusters[0]` access is in bounds — is FALSE on
the code: a document with zero contexts and clusters parses successfully,
passes the `> 1` checks, and the index access then panics out of bounds
(modelled by `none`). -/
theorem fetchKonfs_zero_context_panics :
    fetchKonfs [degenerateKonf] = none := by decide

/-- C4 (amended): after a successful fetch, `selectContext` rejects a prompt
index with the invalid-selection error exactly when the index is at least
the number of entries; an index in `[0, len)` is accessed within bounds and
yields that entry's identifier; but a NEGATIVE index passes the `selPos >=
len(k)` check and `k[selPos]` is then evaluated out of bounds (a runtime
panic, modelled by `none`), instead of being rejected. -/
theorem selectContext_bounds (dir : List DirEntry) (k : List tableOutput) (selPos : Int)
    (hk : fetchKonfs dir = some (Except.ok k)) :
    ((k.length : Int) ≤ selPos →
        selectContext dir (Except.ok selPos)
          = some (Except.error (SelectErr.invalidSelection selPos)))
  ∧ (selPos < 0 → selectContext dir (Except.ok selPos) = none)
  ∧ (0 ≤ selPos → selPos < (k.length : Int) →
      ∃ sel, k.get? selPos.toNat = some sel ∧
        selectContext dir (Except.ok selPos)
          = some (Except.ok (idFromClusterAndContext sel.Cluster sel.Context))) := by
  refine ⟨?_, ?_, ?_⟩
  · intro h
    simp only [selectContext, hk]
    rw [if_pos h]
  · intro h
    have hnle : ¬ (k.length : Int) ≤ selPos := by omega
    simp only [selectContext, hk]
    rw [if_neg hnle, if_pos h]
  · intro h0 hlen
    have hnle : ¬ (k.length : Int) ≤ selPos := by omega
    have hneg : ¬ selPos < 0 := by omega
    have hlt : selPos.toNat < k.length := by omega
    refine ⟨k.get ⟨selPos.toNat, hlt⟩, List.get?_eq_get hlt, ?_⟩
    simp only [selectContext, hk]
    rw [if_neg hnle, if_neg hneg, List.get?_eq_get hlt]

/-- A store holding one valid single-context/single-cluster file. -/
def singleStoreDemo : List DirEntry :=
  [DirEntry.mk "a.yaml" false (some (KubeConfig.mk ["cl1"] ["c1"]))]

/-- The entry list `fetchKonfs` produces for `singleStoreDemo`. -/
def singleTable : List tableOutput := [tableOutput.mk "c1" "cl1" "./konf/store/a.yaml"]

theorem selectContext_bounds_witness :
    selectContext singleStoreDemo (Except.ok 2)
      = some (Except.error (SelectErr.invalidSelection 2)) :=
  (selectContext_bounds singleStoreDemo singleTable 2 (by decide)).1 (by decide)

/-- C4 counterexample: on a one-entry store a prompt result of `-1` is NOT
rejected with the invalid-selection error the claim requires — the index
expression is evaluated out of bounds (panic, modelled by `none`). -/
theorem selectContext_negative_index_panics :
    selectContext singleStoreDemo (Except.ok (-1)) = none
  ∧ selectContext singleStoreDemo (Except.ok (-1))
      ≠ some (Except.error (SelectErr.invalidSelection (-1))) := by decide

/-- C8: for a store of only valid single-cluster/single-context plain files,
indexing succeeds with one entry per file, in ascending file-name order (the
output is the name-sorted listing mapped to descriptors, and that listing is
a sorted permutation of the store); moreover `fetchKonfs` is insensitive to
dropping the entries the walk filters out (sub-directories and hidden
files), so their presence never affects the other entries. -/
theorem fetchKonfs_valid_store :
    (∀ dir : List DirEntry, dir ≠ [] → (∀ e ∈ dir, isSingleKonf e = true) →
        fetchKonfs dir = some (Except.ok ((processOrder dir).map entryOutput))
      ∧ ((processOrder dir).map entryOutput).length = dir.length
      ∧ List.Sorted konfLe (processOrder dir)
      ∧ (processOrder dir).Perm dir)
  ∧ (∀ dir : List DirEntry, fetchKonfs dir = fetchKonfs (dir.filter keepEntry)) := by
  constructor
  · intro dir hne hval
    have hkeep : dir.filter keepEntry = dir :=
      List.filter_eq_self.mpr (fun e he => by
        have h := hval e he
        simp only [isSingleKonf, Bool.and_eq_true] at h
        exact h.1)
    have hperm : (processOrder dir).Perm dir := by
      unfold processOrder
      rw [hkeep]
      exact List.perm_insertionSort konfLe dir
    have hmem : ∀ e ∈ processOrder dir, isSingleKonf e = true :=
      fun e he => hval e (hperm.mem_iff.mp he)
    have hlen0 : ¬ (processOrder dir).length = 0 := by
      rw [hperm.length_eq]
      simpa [List.length_eq_zero] using hne
    refine ⟨?_, ?_, ?_, hperm⟩
    · unfold fetchKonfs
      rw [if_neg hlen0]
      exact indexKonfs_all_single _ hmem
    · rw [List.length_map, hperm.length_eq]
    · unfold processOrder
      exact List.sorted_insertionSort konfLe _
  · intro dir
    have hpo : processOrder (dir.filter keepEntry) = processOrder dir := by
      unfold processOrder
      rw [List.filter_filter]
      simp only [Bool.and_self]
    unfold fetchKonfs
    rw [hpo]

/-- The two-file valid store of the repository's own tests (EU and ASIA
entries). -/
def validStoreDemo : List DirEntry :=
  [DirEntry.mk "dev-eu_dev-eu-1.yaml" false (some (KubeConfig.mk ["dev-eu-1"] ["dev-eu"])),
   DirEntry.mk "dev-asia_dev-asia-1.yaml" false (some (KubeConfig.mk ["dev-asia-1"] ["dev-asia"]))]

theorem fetchKonfs_valid_store_witness :
    (fetchKonfs validStoreDemo = some (Except.ok ((processOrder validStoreDemo).map entryOutput))
  ∧ ((processOrder validStoreDemo).map entryOutput).length = validStoreDemo.length
  ∧ List.Sorted konfLe (processOrder validStoreDemo)
  ∧ (processOrder validStoreDemo).Perm validStoreDemo)
  ∧ fetchKonfs [DirEntry.mk ".DS_Store" false none, DirEntry.mk "sub" true none]
      = fetchKonfs (([DirEntry.mk ".DS_Store" false none,
          DirEntry.mk "sub" true none] : List DirEntry).filter keepEntry) :=
  ⟨fetchKonfs_valid_store.1 validStoreDemo (by decide) (by decide),
   fetchKonfs_valid_store.2 [DirEntry.mk ".DS_Store" false none, DirEntry.mk "sub" true none]⟩

/-- C5 (amended): when activation (`setContext`) succeeds but recording the
latest identifier (`saveLatestKonf`) fails, `set` does NOT succeed: it
returns an error and emits no `KUBECONFIGCHANGE` line at all, even though
the active-konf file has already been written (the store file's bytes are
at the active path). Only the write to the latest record is missing. -/
theorem set_latest_write_failure (id : String) (ppid : Nat) (f f1 : FsState) (context : String)
    (hctx : setContext id ppid f = (Except.ok context, f1))
    (hsave : saveLatestKonf f1 id = Except.error ()) :
    setWithId id ppid f = (Except.error SetErr.saveLatestErr, f1, [])
  ∧ ∃ konf, readFile f (storePathForID id) = some konf
      ∧ readFile f1 (activePathForID (toString ppid)) = some konf := by
  constructor
  · simp only [setWithId, hctx, hsave]
  · cases hread : readFile f (storePathForID id) with
    | none => simp [setContext, hread] at hctx
    | some konf =>
      cases hw : writeFile f (activePathForID (toString ppid)) konf with
      | error u => simp [setContext, hread, hw] at hctx
      | ok f2 =>
        simp only [setContext, hread, hw, Prod.mk.injEq] at hctx
        obtain ⟨-, hfl⟩ := hctx
        exact ⟨konf, rfl, hfl ▸ readFile_writeFile f f2 _ konf hw⟩

/-- A filesystem holding the store file for `dev-eu_dev-eu` on which every
write to the latest-konf record fails. -/
def failLatestFs : FsState :=
  FsState.mk [(storePathForID "dev-eu_dev-eu", "KONF")] [latestKonfFile]

/-- `failLatestFs` after the active-konf write of `setContext` for parent
process id 4. -/
def failLatestFs1 : FsState :=
  FsState.mk [(activePathForID "4", "KONF"), (storePathForID "dev-eu_dev-eu", "KONF")]
    [latestKonfFile]

theorem set_latest_write_failure_witness :
    (setWithId "dev-eu_dev-eu" 4 failLatestFs
        = (Except.error SetErr.saveLatestErr, failLatestFs1, []))
  ∧ ∃ konf, readFile failLatestFs (storePathForID "dev-eu_dev-eu") = some konf
      ∧ readFile failLatestFs1 (activePathForID (toString (4 : Nat))) = some konf :=
  set_latest_write_failure "dev-eu_dev-eu" 4 failLatestFs failLatestFs1 (activePathForID "4")
    (by decide) (by decide)

/-- C5 counterexample: with the latest-konf write failing, the overall set
operation returns an error (it does not succeed) and the `KUBECONFIGCHANGE`
activation signal is NOT emitted (stdout stays empty), contrary to the
claim. -/
theorem set_latest_write_failure_aborts :
    (setWithId "dev-eu_dev-eu" 4 failLatestFs).1 = Except.error SetErr.saveLatestErr
  ∧ (setWithId "dev-eu_dev-eu" 4 failLatestFs).2.2 = [] := by decide

/-- C6: if the store file resolved for the identifier exists (and the active
path is writable), `setContext` succeeds, the content at the
parent-process-scoped active path afterwards equals exactly the store
file's content, and the returned value is the path written; if the store
file does not exist, `setContext` fails not-found and leaves the filesystem
unchanged. -/
theorem setContext_copies (id : String) (ppid : Nat) (f : FsState) :
    (∀ konf, readFile f (storePathForID id) = some konf →
        activePathForID (toString ppid) ∉ f.failWrites →
        ∃ f2, setContext id ppid f = (Except.ok (activePathForID (toString ppid)), f2)
          ∧ readFile f2 (activePathForID (toString ppid)) = some konf)
  ∧ (readFile f (storePathForID id) = none →
        setContext id ppid f = (Except.error SetCtxErr.notFound, f)) := by
  constructor
  · intro konf hread hfail
    simp only [setContext, hread, writeFile, if_neg hfail]
    exact ⟨_, rfl, readFile_writeFile f _ _ konf (by simp only [writeFile, if_neg hfail])⟩
  · intro hread
    simp only [setContext, hread]

/-- A filesystem holding only the store file for `dev-eu_dev-eu`, with no
failing writes. -/
def activeOkFs : FsState := FsState.mk [(storePathForID "dev-eu_dev-eu", "KONF")] []

theorem setContext_copies_witness :
    (∃ f2, setContext "dev-eu_dev-eu" 4 activeOkFs
        = (Except.ok (activePathForID (toString (4 : Nat))), f2)
      ∧ readFile f2 (activePathForID (toString (4 : Nat))) = some "KONF")
  ∧ setContext "missing" 7 (FsState.mk [] [])
      = (Except.error SetCtxErr.notFound, FsState.mk [] []) :=
  ⟨(setContext_copies "dev-eu_dev-eu" 4 activeOkFs).1 "KONF" (by decide) (by decide),
   (setContext_copies "missing" 7 (FsState.mk [] [])).2 (by decide)⟩

/-- C7: reading the latest record right after successfully recording
identifier `x` returns exactly `x`; reading it when no record exists fails
with the dedicated nothing-set-yet condition (`NoPriorSelection`, the
`fs.ErrNotExist` branch with its own message, distinct from a propagated
generic I/O error). -/
theorem latest_roundtrip :
    (∀ (f f2 : FsState) (id : String), saveLatestKonf f id = Except.ok f2 →
        selectLastKonf f2 = Except.ok id)
  ∧ (∀ f : FsState, readFile f latestKonfFile = none →
        selectLastKonf f = Except.error LastErr.noPriorSelection) := by
  constructor
  · intro f f2 id h
    have hr := readFile_writeFile f f2 latestKonfFile id h
    simp only [selectLastKonf, hr]
  · intro f h
    simp only [selectLastKonf, h]

/-- The empty filesystem. -/
def emptyFs : FsState := FsState.mk [] []

theorem latest_roundtrip_witness :
    selectLastKonf (FsState.mk [(latestKonfFile, "context_cluster")] [])
      = Except.ok "context_cluster"
  ∧ selectLastKonf emptyFs = Except.error LastErr.noPriorSelection :=
  ⟨latest_roundtrip.1 emptyFs (FsState.mk [(latestKonfFile, "context_cluster")] [])
      "context_cluster" (by decide),
   latest_roundtrip.2 emptyFs (by decide)⟩

/-- C9: shell completion returns the identifier derived from every indexed
entry's cluster and context; an empty store yields an empty, NON-error
suggestion list (the `EmptyStore` error is swallowed); every other indexing
error yields a nil list with the error directive. -/
theorem completeSet_contract :
    (∀ (dir : List DirEntry) (konfs : List tableOutput),
        fetchKonfs dir = some (Except.ok konfs) →
        completeSet dir
          = some (some (konfs.map (fun k => idFromClusterAndContext k.Cluster k.Context)),
              ShellCompDirective.noFileComp))
  ∧ (∀ dir : List DirEntry, fetchKonfs dir = some (Except.error FetchErr.emptyStore) →
        completeSet dir = some (some [], ShellCompDirective.noFileComp))
  ∧ (∀ (dir : List DirEntry) (p : String),
        fetchKonfs dir = some (Except.error (FetchErr.kubeConfigOverload p)) →
        completeSet dir = some (none, ShellCompDirective.compError)) := by
  refine ⟨?_, ?_, ?_⟩
  · intro dir konfs h
    simp only [completeSet, h]
  · intro dir h
    simp only [completeSet, h]
  · intro dir p h
    simp only [completeSet, h]

theorem completeSet_contract_witness :
    completeSet validStoreDemo
      = some (some ["dev-asia_dev-asia-1", "dev-eu_dev-eu-1"], ShellCompDirective.noFileComp)
  ∧ completeSet [] = some (some [], ShellCompDirective.noFileComp)
  ∧ completeSet [overloadedA] = some (none, ShellCompDirective.compError) :=
  ⟨completeSet_contract.1 validStoreDemo
      [tableOutput.mk "dev-asia" "dev-asia-1" "./konf/store/dev-asia_dev-asia-1.yaml",
       tableOutput.mk "dev-eu" "dev-eu-1" "./konf/store/dev-eu_dev-eu-1.yaml"] (by decide),
   completeSet_contract.2.1 [] (by decide),
   completeSet_contract.2.2 [overloadedA] (entryPath overloadedA) (by decide)⟩

end Konf

